import Mathlib

/-!
Verification of the MHTML archive writer (`src/qutebrowser/misc/mhtml.py`).

The Python module is shallowly embedded: bytes objects become `List Nat`
(each element a byte value), Python `str` values are represented by their
UTF-8 byte sequences, fallible operations return an explicit error, and
the asynchronous download callbacks become a step function over an explicit
build state driven by an event trace.
-/

/-- UTF-8 encoding of a single unicode code point. -/
def utf8Char (n : Nat) : List Nat :=
  if n < 128 then [n]
  else if n < 2048 then [192 + n / 64, 128 + n % 64]
  else if n < 65536 then [224 + n / 4096, 128 + n / 64 % 64, 128 + n % 64]
  else [240 + n / 262144, 128 + n / 4096 % 64, 128 + n / 64 % 64, 128 + n % 64]

/-- A Python `str` is modelled by its UTF-8 byte sequence (`.encode("utf-8")`
is then the identity, which is faithful because UTF-8 encoding is injective). -/
def str (s : String) : List Nat := (s.data.map (fun c => utf8Char c.toNat)).flatten

/-- The base64 alphabet (RFC 4648) as byte values, used by `base64.b64encode`. -/
def b64alphabet : List Nat :=
  str "ABCDEFGHIJKLMNOPQRSTUVWXYZabcdefghijklmnopqrstuvwxyz0123456789+/"

/-- Alphabet byte for a six-bit group. -/
def b64char (x : Nat) : Nat := b64alphabet.getD x 65

/-- `base64.b64encode`: standard base64 with `=` padding (byte 61),
processing the input in three-byte groups. -/
def b64encode : List Nat → List Nat
  | [] => []
  | [a] => [b64char (a / 4), b64char (a % 4 * 16), 61, 61]
  | [a, b] => [b64char (a / 4), b64char (a % 4 * 16 + b / 16), b64char (b % 16 * 4), 61]
  | a :: b :: c :: rest =>
      b64char (a / 4) :: b64char (a % 4 * 16 + b / 16) ::
        b64char (b % 16 * 4 + c / 64) :: b64char (c % 64) :: b64encode rest

/-- Modelled from the spec: six-bit value of a base64 alphabet byte
(inverse of `b64char`), part of the standard base64 decoder that the
round-trip property compares against (the decoder is not part of the
repository source). -/
def b64val (c : Nat) : Nat :=
  if 65 ≤ c ∧ c ≤ 90 then c - 65
  else if 97 ≤ c ∧ c ≤ 122 then c - 71
  else if 48 ≤ c ∧ c ≤ 57 then c + 4
  else if c = 43 then 62
  else if c = 47 then 63
  else 0

/-- Modelled from the spec: standard base64 decoding of a padded base64
string, processing four characters at a time. -/
def b64decode : List Nat → List Nat
  | c1 :: c2 :: c3 :: c4 :: rest =>
      if c3 = 61 then [b64val c1 * 4 + b64val c2 / 16]
      else if c4 = 61 then
        [b64val c1 * 4 + b64val c2 / 16, b64val c2 % 16 * 16 + b64val c3 / 4]
      else
        (b64val c1 * 4 + b64val c2 / 16) ::
          (b64val c2 % 16 * 16 + b64val c3 / 4) ::
          (b64val c3 % 4 * 64 + b64val c4) :: b64decode rest
  | _ => []

/-- The chunking loop of `_chunked_base64` with the default `maxlen=76`:
`for i in range(0, len(encoded), maxlen): result.append(encoded[i:i+maxlen])`.
Structural recursion on a fuel bound so that the kernel can evaluate it; each
step consumes at least one byte, so any fuel at least the list length gives
the loop's behaviour (the fuel-exhausted branch is then unreachable). -/
def chunk76Go : Nat → List Nat → List (List Nat)
  | _, [] => []
  | 0, l => [l]
  | fuel + 1, x :: xs => ((x :: xs).take 76) :: chunk76Go fuel ((x :: xs).drop 76)

/-- The chunk list built by `_chunked_base64` (the encoded output's lines). -/
def chunk76 (l : List Nat) : List (List Nat) := chunk76Go l.length l

/-- `linesep.join(result)` with the default `linesep=b"\r\n"`. -/
def crlfJoin : List (List Nat) → List Nat
  | [] => []
  | [x] => x
  | x :: y :: ys => x ++ 13 :: 10 :: crlfJoin (y :: ys)

/-- `_chunked_base64(data)` with the default arguments, as used by `E_BASE64`. -/
def chunkedBase64 (data : List Nat) : List Nat := crlfJoin (chunk76 (b64encode data))

/-- Removal of the CRLF line separators before decoding (the claim's
"after removing the CRLF line separators"). -/
def stripCRLF (l : List Nat) : List Nat := l.filter (fun b => b != 13 && b != 10)

/-- Split a byte sequence into the lines returned by `readline`: each entry
is the line content without its terminating newline, paired with whether a
newline terminated it (only the last entry can be unterminated). Fuel-based
structural recursion; each step consumes at least one byte. -/
def readLinesGo : Nat → List Nat → List (List Nat × Bool)
  | _, [] => []
  | 0, l => [(l, false)]
  | fuel + 1, l =>
      let line := l.takeWhile (fun c => c != 10)
      match l.drop line.length with
      | 10 :: rest => (line, true) :: readLinesGo fuel rest
      | _ => [(line, false)]

/-- The `readline` loop over a bytes object. -/
def readLines (data : List Nat) : List (List Nat × Bool) := readLinesGo data.length data

/-- `quopri.HEX` digit for a value below 16. -/
def hexDigit (n : Nat) : Nat := (str "0123456789ABCDEF").getD n 48

/-- `quopri.quote(c)`: the three-byte escape `=XX`. -/
def quoteByte (c : Nat) : List Nat := [61, hexDigit (c / 16), hexDigit (c % 16)]

/-- `quopri.needsquoting(c, quotetabs=False, header=False)`. -/
def needsQuoting (c : Nat) : Bool :=
  if c = 32 || c = 9 then false
  else if c = 95 then false
  else c = 61 || !(32 ≤ c && c ≤ 126)

/-- The per-character pass of `quopri.encode` building `outline` for one line. -/
def encOutline (line : List Nat) : List Nat :=
  (line.map (fun c => if needsQuoting c then quoteByte c else [c])).flatten

/-- The soft-line-break loop of `quopri.encode`: while a line is longer than
`MAXLINESIZE = 76`, split off its first 75 bytes followed by a soft break `=`.
Fuel-based structural recursion; each step consumes 75 bytes. -/
def softWrapGo : Nat → List Nat → List (List Nat)
  | 0, l => [l]
  | fuel + 1, l =>
      if l.length > 76 then (l.take 75 ++ [61]) :: softWrapGo fuel (l.drop 75)
      else [l]

/-- The segments one encoded line is written as (all but the last end with a
soft line break). -/
def softWrap (l : List Nat) : List (List Nat) := softWrapGo l.length l

/-- `quopri.encode`'s local `write(s, ...)` without the line end: a line whose
last byte is a space or tab has that byte quoted, and a line that is exactly
`.` is quoted, per the RFC 1521 requirements cited in the source. -/
def writeFix (s : List Nat) : List Nat :=
  match s.getLast? with
  | some c =>
      if c = 32 || c = 9 then s.dropLast ++ quoteByte c
      else if s = [46] then quoteByte 46
      else s
  | none => s

/-- Serialize the soft-wrapped segments of one encoded line; every segment
but the last is terminated by a bare newline, the last by `lastEnd` (the
newline stripped from the input line, or nothing for an unterminated final
line). -/
def qpWriteSegs (lastEnd : List Nat) : List (List Nat) → List Nat
  | [] => []
  | [s] => writeFix s ++ lastEnd
  | s :: rest => writeFix s ++ 10 :: qpWriteSegs lastEnd rest

/-- The main loop of `quopri.encode` (with `quotetabs=False`, `header=False`),
line by line. -/
def qpEncLines : List (List Nat × Bool) → List Nat
  | [] => []
  | [(line, nl)] => qpWriteSegs (if nl then [10] else []) (softWrap (encOutline line))
  | (line, _) :: rest => qpWriteSegs [10] (softWrap (encOutline line)) ++ qpEncLines rest

/-- `quopri.encodestring(data)` along the pure-Python path that `_rn_quopri`
forces by clearing `quopri.b2a_qp`. -/
def qpEncodestring (data : List Nat) : List Nat := qpEncLines (readLines data)

/-- `bytes.replace(b"\n", b"\r\n")`. -/
def lfToCrlf (l : List Nat) : List Nat :=
  (l.map (fun c => if c = 10 then [13, 10] else [c])).flatten

/-- `_rn_quopri(data)`: pure-Python `quopri.encodestring` followed by
replacing every bare newline with CRLF. -/
def rnQuopri (data : List Nat) : List Nat := lfToCrlf (qpEncodestring data)

/-- `quopri.ishex` on a single byte. -/
def ishexB (c : Nat) : Bool :=
  (48 ≤ c && c ≤ 57) || (97 ≤ c && c ≤ 102) || (65 ≤ c && c ≤ 70)

/-- Value of one hex digit byte, as computed by `quopri.unhex`. -/
def unhex1 (c : Nat) : Nat :=
  if 48 ≤ c && c ≤ 57 then c - 48
  else if 97 ≤ c && c ≤ 102 then c - 87
  else if 65 ≤ c && c ≤ 70 then c - 55
  else 0

/-- The character scan of one line in `quopri.decode`. `soft` records whether
the line was newline-terminated (Python's `not partial`), which enables the
soft-line-break rule for a trailing `=`. Returns the decoded bytes and
whether the line ended in a soft break (so no hard newline is emitted). -/
def qpParse (soft : Bool) : List Nat → List Nat × Bool
  | [] => ([], false)
  | [61] => if soft then ([], true) else ([61], false)
  | 61 :: 61 :: rest =>
      let r := qpParse soft rest
      (61 :: r.1, r.2)
  | 61 :: a :: b :: rest =>
      if ishexB a && ishexB b then
        let r := qpParse soft rest
        ((unhex1 a * 16 + unhex1 b) :: r.1, r.2)
      else
        let r := qpParse soft (a :: b :: rest)
        (61 :: r.1, r.2)
  | [61, a] =>
      let r := qpParse soft [a]
      (61 :: r.1, r.2)
  | c :: rest =>
      let r := qpParse soft rest
      (c :: r.1, r.2)

/-- Trailing-whitespace strip (`while n > 0 and line[n-1:n] in b" \t\r"`)
applied by `quopri.decode` to newline-terminated lines. -/
def rstripWs (l : List Nat) : List Nat :=
  (l.reverse.dropWhile (fun c => c == 32 || c == 9 || c == 13)).reverse

/-- The main loop of `quopri.decode`: the accumulator carries the pending
decoded bytes (`new`), flushed with a hard newline after every line that did
not end in a soft break. -/
def qpDecLines : List (List Nat × Bool) → List Nat → List Nat
  | [], acc => acc
  | (content, true) :: rest, acc =>
      let r := qpParse true (rstripWs content)
      if r.2 then qpDecLines rest (acc ++ r.1)
      else acc ++ r.1 ++ 10 :: qpDecLines rest []
  | (content, false) :: rest, acc =>
      qpDecLines rest (acc ++ (qpParse false content).1)

/-- `quopri.decodestring(data)` along the pure-Python path (the standard
quoted-printable decoder the round-trip claim composes with). -/
def qpDecodestring (data : List Nat) : List Nat := qpDecLines (readLines data) []

/-- The three transfer encodings `E_NONE`, `E_BASE64`, `E_QUOPRI`; each is a
`(name, function)` pair in the source, split here into `teName`/`teApply`. -/
inductive TransferEncoding where
  | identity
  | base64
  | quopri
deriving DecidableEq

/-- `E_NONE = (None, lambda x: x)`. -/
def E_NONE : TransferEncoding := .identity

/-- `E_BASE64 = ("base64", _chunked_base64)`. -/
def E_BASE64 : TransferEncoding := .base64

/-- `E_QUOPRI = ("quoted-printable", _rn_quopri)`. -/
def E_QUOPRI : TransferEncoding := .quopri

/-- The encoding name component (`None` for `E_NONE`). -/
def teName : TransferEncoding → Option (List Nat)
  | .identity => none
  | .base64 => some (str "base64")
  | .quopri => some (str "quoted-printable")

/-- The encoding function component. -/
def teApply : TransferEncoding → List Nat → List Nat
  | .identity => fun x => x
  | .base64 => chunkedBase64
  | .quopri => rnQuopri

/-- The `_File` namedtuple. `content_type` is `Option` because Python allows
`None` there (the Content-Type line is then omitted). -/
structure FileRec where
  content : List Nat
  content_type : Option (List Nat)
  content_location : List Nat
  transfer_encoding : TransferEncoding
deriving DecidableEq

/-- The single `uuid4()` value drawn when the class body of `MHTMLWriter` is
evaluated. Its concrete digits are irrelevant to every property proved here;
what matters is that the token is computed once per program run, at
class-definition time, so the embedding fixes one arbitrary value. -/
def uuidAtClassDef : List Nat := str "00000000-0000-4000-8000-000000000000"

/-- `MHTMLWriter.BOUNDARY = b"---qute-mhtml-" + str(uuid4()).encode("ascii")`:
a class attribute, computed once when the class is defined. -/
def BOUNDARY : List Nat := str "---qute-mhtml-" ++ uuidAtClassDef

/-- The mutable state of an `MHTMLWriter` instance. The class attribute
`BOUNDARY` is deliberately not a field: Python attribute lookup on any
instance falls through to the single class-level value. -/
structure MHTMLWriter where
  root_content : Option (List Nat)
  content_location : Option (List Nat)
  content_type : Option (List Nat)
  files : List (List Nat × FileRec)
deriving DecidableEq

/-- `self.BOUNDARY`: instance attribute lookup reaching the class attribute. -/
def MHTMLWriter.boundary (_ : MHTMLWriter) : List Nat := BOUNDARY

/-- `MHTMLWriter.__init__(self, root_content=None, content_location=None,
content_type=None)`. Line 84 of the source assigns `self.content_type = None`,
ignoring the `content_type` argument. All three Python keyword arguments
default to `None`; the embedding passes them explicitly. -/
def mkWriter (root_content : Option (List Nat))
    (content_location : Option (List Nat))
    (content_type : Option (List Nat)) : MHTMLWriter :=
  { root_content := root_content
    content_location := content_location
    content_type := (fun _ => none) content_type
    files := [] }

/-- Python dict assignment `m[k] = v`: an existing key keeps its insertion
position and gets the new value, a new key is appended. -/
def dictSet (m : List (List Nat × FileRec)) (k : List Nat) (v : FileRec) :
    List (List Nat × FileRec) :=
  if m.any (fun p => p.1 = k) then
    m.map (fun p => if p.1 = k then (k, v) else p)
  else m ++ [(k, v)]

/-- `MHTMLWriter.add_file(location, content, content_type, transfer_encoding)`.
The Python defaults are `content_type=None` and `transfer_encoding=E_BASE64`;
the embedding passes both explicitly. -/
def addFile (w : MHTMLWriter) (location content : List Nat)
    (content_type : Option (List Nat))
    (transfer_encoding : TransferEncoding) : MHTMLWriter :=
  let f : FileRec :=
    { content := content, content_type := content_type,
      content_location := location, transfer_encoding := transfer_encoding }
  { w with files := dictSet w.files location f }

/-- `MHTMLWriter._output_file(fp, file_struct)`: the byte sequence one part
contributes to the sink. -/
def outputFile (f : FileRec) : List Nat :=
  str "--" ++ BOUNDARY
    ++ str "\r\nContent-Location: " ++ f.content_location
    ++ (match f.content_type with
        | some ct => str "\r\nContent-Type: " ++ ct
        | none => [])
    ++ (match teName f.transfer_encoding with
        | some n => str "\r\nContent-Transfer-Encoding: " ++ n
        | none => [])
    ++ str "\r\n\r\n"
    ++ teApply f.transfer_encoding f.content
    ++ str "\r\n\r\n"

/-- The root `_File` built by `MHTMLWriter._output_root_file`: always
`transfer_encoding=E_QUOPRI`. The `getD` defaults model the call context in
`write_to`, where the header check has already ensured `content_location`
is set (an unset `root_content` would be a `TypeError` inside the encoder in
Python; no claim exercises that path). -/
def rootFile (w : MHTMLWriter) : FileRec :=
  { content := w.root_content.getD []
    content_type := w.content_type
    content_location := w.content_location.getD []
    transfer_encoding := E_QUOPRI }

/-- `MHTMLWriter._output_header(fp)`: the two `raise ValueError` checks come
before any write, so on error no bytes reach the sink. -/
def outputHeader (w : MHTMLWriter) : Except String (List Nat) :=
  match w.content_location with
  | none => .error "content_location must be set"
  | some loc =>
      match w.content_type with
      | none => .error "content_type must be set for the root document"
      | some ct =>
          .ok (str "Content-Location: " ++ loc
            ++ str "\r\nContent-Type: multipart/related;boundary=\"" ++ BOUNDARY
            ++ str "\";type=\"" ++ ct ++ str "\"\r\n\r\n")

/-- `MHTMLWriter.write_to(fp)`: the bytes written to the sink, paired with
the error raised (if any). The error propagates out of `_output_header`
before the first `fp.write`, so the error case pairs with an empty sink. -/
def writeTo (w : MHTMLWriter) : List Nat × Option String :=
  match outputHeader w with
  | .error e => ([], some e)
  | .ok hdr =>
      (hdr ++ outputFile (rootFile w)
        ++ (w.files.map (fun p => outputFile p.2)).flatten
        ++ str "\r\n--" ++ BOUNDARY ++ str "--", none)

/-- A DOM element as `start_download` consumes it: `element.attribute(name)`
returns the attribute value, or the empty string when absent. -/
structure Element where
  attrs : List (List Nat × List Nat)
deriving DecidableEq

/-- `element.attribute(name)`. -/
def Element.attr (e : Element) (name : List Nat) : List Nat :=
  (e.attrs.lookup name).getD []

/-- The attribute probe of the dispatch loop: `element.attribute("src")`,
falling back to `element.attribute("href")` when the former is empty. -/
def elementUrl (e : Element) : List Nat :=
  let u := e.attr (str "src")
  if u.isEmpty then e.attr (str "href") else u

/-- The dispatch loop of `start_download`, restricted to the sequence of
absolute URLs it accepts (one download is dispatched per emitted URL, in
order). `uj` is `urllib.parse.urljoin`, an external collaborator taken as a
parameter; `seen` is the `loaded_urls` set, modelled as the list of its
elements. -/
def collectGo (uj : List Nat → List Nat → List Nat) (base : List Nat)
    (seen : List (List Nat)) : List Element → List (List Nat)
  | [] => []
  | e :: es =>
      let u := elementUrl e
      if u.isEmpty then collectGo uj base seen es
      else
        let a := uj base u
        if a ∈ seen then collectGo uj base seen es
        else a :: collectGo uj base (a :: seen) es

/-- The unique absolute URLs `start_download` dispatches, in dispatch order
(`loaded_urls` starts empty). -/
def collectAssets (uj : List Nat → List Nat → List Nat) (base : List Nat)
    (es : List Element) : List (List Nat) :=
  collectGo uj base [] es

/-- `bytes.decode("ascii", "ignore")`: non-ASCII bytes are dropped; the
resulting text is modelled by its (ASCII) byte sequence. -/
def asciiIgnore (l : List Nat) : List Nat := l.filter (fun c => c < 128)

/-- `item.raw_headers.get(b"Content-Type", b"")` followed by the ASCII
decode in the `finished` callback. -/
def mimeFromHeaders (headers : List (List Nat × List Nat)) : List Nat :=
  asciiIgnore ((headers.lookup (str "Content-Type")).getD [])

/-- The `_File` record stored by the `finished` callback:
`writer.add_file(name, content, mime, E_QUOPRI if mime.startswith("text/")
else E_BASE64)`. -/
def finishedFileRec (name content : List Nat)
    (headers : List (List Nat × List Nat)) : FileRec :=
  let mime := mimeFromHeaders headers
  { content := content
    content_type := some mime
    content_location := name
    transfer_encoding :=
      if (str "text/").isPrefixOf mime then E_QUOPRI else E_BASE64 }

/-- The single outcome a dispatched download reports: the `finished`,
`error` or `cancelled` signal (the latter two are connected to the same
`error` callback in the source). -/
inductive Outcome where
  | finished (content : List Nat) (headers : List (List Nat × List Nat))
  | error
  | cancelled

/-- The state shared by `start_download`'s closures: the writer, the
`pending_downloads` set (as the list of outstanding item indices), how many
times `finish_file` has run, and the result of the `write_to` call it makes
(`none` while the archive has not been written). -/
structure BuildState where
  writer : MHTMLWriter
  pending : List Nat
  finalized : Nat
  output : Option (List Nat × Option String)

/-- `finish_file()`: opens the destination and runs `writer.write_to`. -/
def finishFile (st : BuildState) : BuildState :=
  { st with finalized := st.finalized + 1, output := some (writeTo st.writer) }

/-- One callback invocation. `urls` maps item indices to the absolute URL
each `functools.partial` closed over. Both callbacks first discard the item
from `pending_downloads`, then record a part, then run `finish_file()` only
if `pending_downloads` is empty. A valid trace delivers each index at most
once (each download reports exactly one outcome), matching `set.remove`. -/
def handleEvent (urls : List (List Nat)) (st : BuildState)
    (ev : Nat × Outcome) : BuildState :=
  let name := urls.getD ev.1 []
  let st1 : BuildState := { st with pending := st.pending.erase ev.1 }
  let st2 : BuildState :=
    match ev.2 with
    | .finished content headers =>
        let mime := mimeFromHeaders headers
        let enc := if (str "text/").isPrefixOf mime then E_QUOPRI else E_BASE64
        { st1 with writer := addFile st1.writer name content (some mime) enc }
    | .error => { st1 with writer := addFile st1.writer name [] none E_BASE64 }
    | .cancelled => { st1 with writer := addFile st1.writer name [] none E_BASE64 }
  if st2.pending.isEmpty then finishFile st2 else st2

/-- `start_download(dest)` followed by an event trace: the writer is
configured (`root_content`, `content_location`, `content_type = "text/html"`),
the dispatch loop issues one download per unique asset URL, and then the
download callbacks fire in trace order. The Qt event loop delivers the
signals only after `start_download` itself returns, so every event follows
the dispatch phase. Crucially, the source evaluates the zero-pending check
only inside the two callbacks, never after the dispatch loop. -/
def runBuild (uj : List Nat → List Nat → List Nat) (base rootHtml : List Nat)
    (elements : List Element) (events : List (Nat × Outcome)) : BuildState :=
  let writer : MHTMLWriter :=
    { mkWriter none none none with
        root_content := some rootHtml
        content_location := some base
        content_type := some (str "text/html") }
  let urls := collectAssets uj base elements
  let st0 : BuildState :=
    { writer := writer, pending := List.range urls.length,
      finalized := 0, output := none }
  events.foldl (handleEvent urls) st0

/-- Spec-side collector, step one (from the spec's words): "for each element,
read a source attribute first, falling back to a secondary attribute if the
first is empty; skip the element entirely if both are empty. Resolve the
found value against the base location." -/
def specCandidates (uj : List Nat → List Nat → List Nat) (base : List Nat)
    (es : List Element) : List (List Nat) :=
  es.filterMap (fun e =>
    let u := elementUrl e
    if u.isEmpty then none else some (uj base u))

/-- Spec-side collector, step two (from the spec's words): "maintain a set of
already-seen absolute locations; skip any location already seen, otherwise
emit it and mark it seen" — first-occurrence deduplication. -/
def specDedupFirst (l : List (List Nat)) : List (List Nat) :=
  l.foldl (fun acc x => if x ∈ acc then acc else acc ++ [x]) []

/-- Spec-side collector: unique absolute locations in first-occurrence order. -/
def specCollectAssets (uj : List Nat → List Nat → List Nat) (base : List Nat)
    (es : List Element) : List (List Nat) :=
  specDedupFirst (specCandidates uj base es)

/-- C1: the claim asserts that for every archive build with N unique
candidate locations, N ≥ 0, finalize fires exactly once. Evaluating the code
at the failing input N = 0 (no candidate elements, hence no fetch events):
`finish_file` is reachable only from the two download callbacks, the dispatch
loop performs no zero-count check of its own, so finalize never fires. -/
theorem finalize_skipped_on_empty_candidate_set :
    (runBuild (fun _ u => u) (str "http://example.com/")
      (str "<html></html>") [] []).finalized = 0 := rfl

/-- C2: the claim asserts that with an empty candidate set finalize fires
immediately and the root-only archive is written. Evaluating the code at
that input: after `start_download` finishes dispatching zero fetches, no
callback can ever run, so the archive is never written at all. -/
theorem no_archive_written_on_empty_candidate_set :
    (runBuild (fun _ u => u) (str "http://example.com/")
      (str "<html></html>") [] []).output = none := rfl

/-- C5 counterexample: two concrete, distinct `MHTMLWriter` instances have
the same boundary token, refuting "for any two distinct archive instances,
their boundary tokens differ": `BOUNDARY` is a class attribute, computed
once at class-definition time, not per instance. -/
theorem distinct_writers_share_boundary :
    (mkWriter none (some (str "http://a.example/")) none ≠
      mkWriter none (some (str "http://b.example/")) none) ∧
    (mkWriter none (some (str "http://a.example/")) none).boundary =
      (mkWriter none (some (str "http://b.example/")) none).boundary :=
  ⟨by decide, rfl⟩

/-- C5 amended: the boundary token is generated once, at class-definition
time, and is shared by every `MHTMLWriter` instance of the program run: any
two instances (distinct or not) have equal boundary tokens. -/
theorem boundary_constant_across_instances (w1 w2 : MHTMLWriter) :
    w1.boundary = w2.boundary := rfl

/-- C7: the claim asserts the quoted-printable round-trip is exact for every
byte input. Evaluating the code at the failing input, 74 bytes `a` followed
by byte 255: the soft-line-break slice in `quopri.encode` cuts through the
middle of the `=FF` escape, producing `a`*74 ++ "==\r\nFF", which
quoted-printable decoding turns into `a`*74 ++ "=\nFF", not the original. -/
theorem rn_quopri_roundtrip_fails_on_split_escape :
    qpDecodestring (rnQuopri (List.replicate 74 97 ++ [255])) ≠
      List.replicate 74 97 ++ [255] := by decide

/-- C10 counterexample: a writer freshly constructed with
`content_location=None` (and a `content_type` argument supplied) fails
serialization with the missing-content-location error, not the
missing-content-type error the claim names for every freshly constructed
writer. -/
theorem fresh_writer_raises_location_error_first :
    (writeTo (mkWriter none none (some (str "text/html")))).2 =
      some "content_location must be set" ∧
    (some "content_location must be set" : Option String) ≠
      some "content_type must be set for the root document" :=
  ⟨rfl, by decide⟩

/-- C10 amended: the constructor ignores its `content_type` argument and
leaves the field `None`; serialization on a freshly constructed writer
always fails — with the missing-content-type error whenever
`content_location` was supplied, and with the missing-content-location
error otherwise. -/
theorem init_discards_content_type_argument
    (rc cl ct : Option (List Nat)) :
    (mkWriter rc cl ct).content_type = none ∧
    (writeTo (mkWriter rc cl ct)).2 =
      some (match cl with
        | none => "content_location must be set"
        | some _ => "content_type must be set for the root document") := by
  refine ⟨rfl, ?_⟩
  cases cl <;> rfl

/-- C4: if `content_location` or `content_type` is unset when serialization
begins, `write_to` fails with a configuration error (`ValueError`) raised in
`_output_header` before any write, so zero bytes reach the sink. -/
theorem write_to_unset_config_errors_before_writing (w : MHTMLWriter)
    (h : w.content_location = none ∨ w.content_type = none) :
    (writeTo w).1 = [] ∧ (writeTo w).2.isSome := by
  rcases h with h | h
  · simp [writeTo, outputHeader, h]
  · cases hcl : w.content_location with
    | none => simp [writeTo, outputHeader, hcl]
    | some loc => simp [writeTo, outputHeader, hcl, h]

/-- C4 witness: a concrete writer with both fields unset errors with an
empty sink. -/
theorem write_to_unset_config_errors_before_writing_witness :
    ((mkWriter none none none).content_location = none ∨
      (mkWriter none none none).content_type = none) ∧
    ((writeTo (mkWriter none none none)).1 = [] ∧
      (writeTo (mkWriter none none none)).2.isSome) :=
  ⟨Or.inl rfl,
    write_to_unset_config_errors_before_writing (mkWriter none none none)
      (Or.inl rfl)⟩

/-- C9: the root part always uses quoted-printable, and the part stored by
the `finished` callback uses quoted-printable exactly when the reported
media type starts with "text/"; with no Content-Type header at all the
media type is empty and chunked base64 is chosen. The second conjunct ties
the stored record to the callback step itself. -/
theorem encoder_selection_policy (w : MHTMLWriter) (urls : List (List Nat))
    (st : BuildState) (i : Nat) (content : List Nat)
    (headers : List (List Nat × List Nat)) :
    (rootFile w).transfer_encoding = E_QUOPRI ∧
    (handleEvent urls st (i, .finished content headers)).writer.files =
      dictSet st.writer.files (urls.getD i [])
        (finishedFileRec (urls.getD i []) content headers) ∧
    ((finishedFileRec (urls.getD i []) content headers).transfer_encoding =
      if (str "text/").isPrefixOf (mimeFromHeaders headers) then E_QUOPRI
      else E_BASE64) ∧
    (finishedFileRec (urls.getD i []) content []).transfer_encoding =
      E_BASE64 := by
  refine ⟨rfl, ?_, rfl, rfl⟩
  unfold handleEvent finishFile
  dsimp only
  split <;> rfl

/-- C3 counterexample: the part serialized for a concrete failed fetch does
carry a `Content-Transfer-Encoding: base64` header line (the `error`
callback's `add_file(name, b"")` leaves the default `E_BASE64`), so it is
not the claimed framing with no Content-Transfer-Encoding line. -/
theorem error_part_has_transfer_encoding_line :
    outputFile
      { content := [], content_type := none,
        content_location := str "http://e.com/a.png",
        transfer_encoding := E_BASE64 } =
      str "--" ++ BOUNDARY ++ str "\r\nContent-Location: http://e.com/a.png"
        ++ str "\r\nContent-Transfer-Encoding: base64"
        ++ str "\r\n\r\n" ++ str "\r\n\r\n" ∧
    outputFile
      { content := [], content_type := none,
        content_location := str "http://e.com/a.png",
        transfer_encoding := E_BASE64 } ≠
      str "--" ++ BOUNDARY ++ str "\r\nContent-Location: http://e.com/a.png"
        ++ str "\r\n\r\n" ++ str "\r\n\r\n" :=
  ⟨by decide, by decide⟩

/-- C3 amended: a fetch ending in error or cancellation stores an
empty-content placeholder record (no media type, default base64 encoding)
without aborting the build, and its serialized part has no Content-Type
line, a `Content-Transfer-Encoding: base64` line, and an empty body. -/
theorem error_part_serialization (w : MHTMLWriter) (loc : List Nat) :
    (addFile w loc [] none E_BASE64).files = dictSet w.files loc
      { content := [], content_type := none, content_location := loc,
        transfer_encoding := E_BASE64 } ∧
    outputFile
      { content := [], content_type := none, content_location := loc,
        transfer_encoding := E_BASE64 } =
      (str "--" ++ BOUNDARY ++ str "\r\nContent-Location: ") ++ loc
        ++ str "\r\nContent-Transfer-Encoding: base64\r\n\r\n\r\n\r\n" := by
  refine ⟨rfl, ?_⟩
  simp only [outputFile, teName, teApply, E_BASE64, List.append_assoc]
  congr 1

/-- Key facts about the base64 alphabet, by finite check: `b64val` inverts
`b64char` on six-bit values, and no alphabet byte is `=`, CR or LF. -/
theorem b64char_facts : ∀ x < 64,
    b64val (b64char x) = x ∧ b64char x ≠ 61 ∧ b64char x ≠ 13 ∧ b64char x ≠ 10 := by
  decide

/-- Division helper: `(m * k + d) / k = m` when `d < k`. -/
theorem mulAdd_div (k m d : Nat) (hk : 0 < k) (hd : d < k) :
    (m * k + d) / k = m := by
  rw [Nat.mul_comm, Nat.mul_add_div hk, Nat.div_eq_of_lt hd, Nat.add_zero]

/-- Remainder helper: `(m * k + d) % k = d` when `d < k`. -/
theorem mulAdd_mod (k m d : Nat) (hd : d < k) :
    (m * k + d) % k = d := by
  rw [Nat.mul_comm, Nat.mul_add_mod, Nat.mod_eq_of_lt hd]

/-- Division helper: `m * k / k = m` for positive `k`. -/
theorem mulK_div (k m : Nat) (hk : 0 < k) : m * k / k = m := by
  have h := mulAdd_div k m 0 hk hk
  simpa using h

/-- Standard base64 decoding inverts `b64encode` on byte sequences. -/
theorem b64decode_b64encode : ∀ (l : List Nat), (∀ b ∈ l, b < 256) →
    b64decode (b64encode l) = l
  | [], _ => rfl
  | [a], h => by
      have ha : a < 256 := h a (by simp)
      have h1 := (b64char_facts (a / 4) (by omega)).1
      have h2 := (b64char_facts (a % 4 * 16) (by omega)).1
      have e1 : a % 4 * 16 / 16 = a % 4 := mulK_div 16 (a % 4) (by norm_num)
      simp [b64encode, b64decode, h1, h2, e1]
      omega
  | [a, b], h => by
      have ha : a < 256 := h a (by simp)
      have hb : b < 256 := h b (by simp)
      have h1 := (b64char_facts (a / 4) (by omega)).1
      have h2 := (b64char_facts (a % 4 * 16 + b / 16) (by omega)).1
      have h3 := (b64char_facts (b % 16 * 4) (by omega)).1
      have h3ne := (b64char_facts (b % 16 * 4) (by omega)).2.1
      have e1 : (a % 4 * 16 + b / 16) / 16 = a % 4 :=
        mulAdd_div 16 (a % 4) (b / 16) (by norm_num) (by omega)
      have e2 : (a % 4 * 16 + b / 16) % 16 = b / 16 :=
        mulAdd_mod 16 (a % 4) (b / 16) (by omega)
      have e3 : b % 16 * 4 / 4 = b % 16 := mulK_div 4 (b % 16) (by norm_num)
      simp [b64encode, b64decode, h3ne, h1, h2, h3, e1, e2, e3]
      omega
  | a :: b :: c :: rest, h => by
      have ha : a < 256 := h a (by simp)
      have hb : b < 256 := h b (by simp)
      have hc : c < 256 := h c (by simp)
      have h1 := (b64char_facts (a / 4) (by omega)).1
      have h2 := (b64char_facts (a % 4 * 16 + b / 16) (by omega)).1
      have h3 := (b64char_facts (b % 16 * 4 + c / 64) (by omega)).1
      have h4 := (b64char_facts (c % 64) (by omega)).1
      have h3ne := (b64char_facts (b % 16 * 4 + c / 64) (by omega)).2.1
      have h4ne := (b64char_facts (c % 64) (by omega)).2.1
      have e1 : (a % 4 * 16 + b / 16) / 16 = a % 4 :=
        mulAdd_div 16 (a % 4) (b / 16) (by norm_num) (by omega)
      have e2 : (a % 4 * 16 + b / 16) % 16 = b / 16 :=
        mulAdd_mod 16 (a % 4) (b / 16) (by omega)
      have e3 : (b % 16 * 4 + c / 64) / 4 = b % 16 :=
        mulAdd_div 4 (b % 16) (c / 64) (by norm_num) (by omega)
      have e4 : (b % 16 * 4 + c / 64) % 4 = c / 64 :=
        mulAdd_mod 4 (b % 16) (c / 64) (by omega)
      have ih := b64decode_b64encode rest (fun x hx => h x (by simp [hx]))
      simp [b64encode, b64decode, h3ne, h4ne, h1, h2, h3, h4, e1, e2, e3, e4,
        ih]
      omega

/-- Every byte of a base64 encoding is an alphabet byte or padding; in
particular it is neither CR nor LF. -/
theorem b64encode_no_crlf : ∀ (l : List Nat), (∀ b ∈ l, b < 256) →
    ∀ x ∈ b64encode l, x ≠ 13 ∧ x ≠ 10
  | [], _ => by simp [b64encode]
  | [a], h => by
      have ha : a < 256 := h a (by simp)
      have h1 := (b64char_facts (a / 4) (by omega)).2.2
      have h2 := (b64char_facts (a % 4 * 16) (by omega)).2.2
      intro x hx
      simp only [b64encode, List.mem_cons, List.not_mem_nil, or_false] at hx
      rcases hx with rfl | rfl | rfl | rfl <;> simp_all
  | [a, b], h => by
      have ha : a < 256 := h a (by simp)
      have hb : b < 256 := h b (by simp)
      have h1 := (b64char_facts (a / 4) (by omega)).2.2
      have h2 := (b64char_facts (a % 4 * 16 + b / 16) (by omega)).2.2
      have h3 := (b64char_facts (b % 16 * 4) (by omega)).2.2
      intro x hx
      simp only [b64encode, List.mem_cons, List.not_mem_nil, or_false] at hx
      rcases hx with rfl | rfl | rfl | rfl <;> simp_all
  | a :: b :: c :: rest, h => by
      have ha : a < 256 := h a (by simp)
      have hb : b < 256 := h b (by simp)
      have hc : c < 256 := h c (by simp)
      have h1 := (b64char_facts (a / 4) (by omega)).2.2
      have h2 := (b64char_facts (a % 4 * 16 + b / 16) (by omega)).2.2
      have h3 := (b64char_facts (b % 16 * 4 + c / 64) (by omega)).2.2
      have h4 := (b64char_facts (c % 64) (by omega)).2.2
      have ih := b64encode_no_crlf rest (fun x hx => h x (by simp [hx]))
      intro x hx
      simp only [b64encode, List.mem_cons] at hx
      rcases hx with rfl | rfl | rfl | rfl | hx
      · simp_all
      · simp_all
      · simp_all
      · simp_all
      · exact ih x hx

/-- Concatenating the chunks gives back the chunked list, for any fuel. -/
theorem chunk76Go_flatten : ∀ (fuel : Nat) (l : List Nat),
    (chunk76Go fuel l).flatten = l
  | fuel, [] => by cases fuel <;> rfl
  | 0, _ :: _ => by simp [chunk76Go]
  | fuel + 1, x :: xs => by
      simp only [chunk76Go, List.flatten_cons,
        chunk76Go_flatten fuel ((x :: xs).drop 76)]
      exact List.take_append_drop 76 (x :: xs)

/-- Removing CR and LF from a CRLF-join of CR/LF-free chunks recovers the
concatenation of the chunks. -/
theorem stripCRLF_crlfJoin : ∀ (cs : List (List Nat)),
    (∀ c ∈ cs, ∀ b ∈ c, b ≠ 13 ∧ b ≠ 10) →
    stripCRLF (crlfJoin cs) = cs.flatten
  | [], _ => rfl
  | [x], h => by
      have hx : ∀ b ∈ x, (fun b => b != 13 && b != 10) b = true := by
        intro b hb
        have hb2 := h x (by simp) b hb
        simp_all
      simp [crlfJoin, stripCRLF, List.filter_eq_self.mpr hx]
  | x :: y :: ys, h => by
      have hx : ∀ b ∈ x, (fun b => b != 13 && b != 10) b = true := by
        intro b hb
        have hb2 := h x (by simp) b hb
        simp_all
      have ih := stripCRLF_crlfJoin (y :: ys) (fun c hc => h c (by simp [hc]))
      simp only [stripCRLF] at ih
      simp [crlfJoin, stripCRLF, List.filter_append,
        List.filter_eq_self.mpr hx, ih]

/-- Every byte of every chunk comes from the chunked list. -/
theorem chunk76Go_sub : ∀ (fuel : Nat) (l : List Nat) (c : List Nat),
    c ∈ chunk76Go fuel l → ∀ b ∈ c, b ∈ l
  | fuel, [], c => by cases fuel <;> simp [chunk76Go]
  | 0, x :: xs, c => by
      simp only [chunk76Go, List.mem_cons, List.not_mem_nil, or_false]
      rintro rfl
      exact fun b hb => List.mem_cons.mp hb
  | fuel + 1, x :: xs, c => by
      simp only [chunk76Go, List.mem_cons]
      rintro (rfl | hc)
      · exact fun b hb => List.mem_cons.mp (List.take_subset 76 (x :: xs) hb)
      · exact fun b hb => List.mem_cons.mp
          (List.drop_subset 76 (x :: xs) (chunk76Go_sub fuel _ c hc b hb))

/-- With enough fuel (the loop's actual regime) every chunk has at most 76
bytes. -/
theorem chunk76Go_short : ∀ (fuel : Nat) (l : List Nat), l.length ≤ fuel →
    ∀ c ∈ chunk76Go fuel l, c.length ≤ 76
  | fuel, [], _ => by cases fuel <;> simp [chunk76Go]
  | 0, x :: xs, h => by simp at h
  | fuel + 1, x :: xs, h => by
      simp only [chunk76Go, List.mem_cons]
      rintro c (rfl | hc)
      · simp [List.length_take]
      · refine chunk76Go_short fuel _ ?_ c hc
        simp only [List.length_drop, List.length_cons]
        simp only [List.length_cons] at h
        omega

/-- C6: chunked base64 encoding followed by standard base64 decoding (after
removing the CRLF separators) reconstructs the original bytes; the encoded
output is the CRLF-join of chunks of at most 76 CR/LF-free characters
(hence no line exceeds 76 characters); and empty input yields empty output
with no trailing content. -/
theorem chunked_base64_roundtrip (data : List Nat)
    (h : ∀ b ∈ data, b < 256) :
    b64decode (stripCRLF (chunkedBase64 data)) = data ∧
    (∀ line ∈ chunk76 (b64encode data),
      line.length ≤ 76 ∧ ∀ b ∈ line, b ≠ 13 ∧ b ≠ 10) ∧
    chunkedBase64 data = crlfJoin (chunk76 (b64encode data)) ∧
    chunkedBase64 [] = [] := by
  have hmem : ∀ c ∈ chunk76 (b64encode data), ∀ b ∈ c, b ≠ 13 ∧ b ≠ 10 :=
    fun c hc b hb =>
      b64encode_no_crlf data h b (chunk76Go_sub _ _ c hc b hb)
  refine ⟨?_, ?_, rfl, rfl⟩
  · have h1 : stripCRLF (crlfJoin (chunk76 (b64encode data))) =
        (chunk76 (b64encode data)).flatten := stripCRLF_crlfJoin _ hmem
    have h2 : (chunk76 (b64encode data)).flatten = b64encode data :=
      chunk76Go_flatten _ _
    show b64decode (stripCRLF (crlfJoin (chunk76 (b64encode data)))) = data
    rw [h1, h2]
    exact b64decode_b64encode data h
  · exact fun line hline =>
      ⟨chunk76Go_short _ _ (le_refl _) line hline, hmem line hline⟩

/-- C6 witness: the round-trip and line-length properties instantiated at
the concrete input "Hi". -/
theorem chunked_base64_roundtrip_witness :
    (∀ b ∈ [72, 105], b < 256) ∧
    (b64decode (stripCRLF (chunkedBase64 [72, 105])) = [72, 105] ∧
      (∀ line ∈ chunk76 (b64encode [72, 105]),
        line.length ≤ 76 ∧ ∀ b ∈ line, b ≠ 13 ∧ b ≠ 10) ∧
      chunkedBase64 [72, 105] = crlfJoin (chunk76 (b64encode [72, 105])) ∧
      chunkedBase64 [] = []) :=
  ⟨by decide, chunked_base64_roundtrip [72, 105] (by decide)⟩

/-- The dispatch loop's seen-set recursion computes the spec's
first-occurrence fold, continued from any accumulator whose membership
agrees with the seen set. -/
theorem collectGo_spec (uj : List Nat → List Nat → List Nat)
    (base : List Nat) :
    ∀ (es : List Element) (seen acc : List (List Nat)),
    (∀ x, x ∈ seen ↔ x ∈ acc) →
    (specCandidates uj base es).foldl
        (fun acc x => if x ∈ acc then acc else acc ++ [x]) acc =
      acc ++ collectGo uj base seen es
  | [], _, acc, _ => by simp [specCandidates, collectGo]
  | e :: es, seen, acc, hme => by
      by_cases hu : (elementUrl e).isEmpty
      · have hu2 : elementUrl e = [] := by simpa using hu
        have hc : specCandidates uj base (e :: es) =
            specCandidates uj base es := by
          simp [specCandidates, List.filterMap_cons, hu2]
        rw [hc]
        simp only [collectGo, hu, if_true]
        exact collectGo_spec uj base es seen acc hme
      · have hu2 : ¬ elementUrl e = [] := by simpa using hu
        have hc : specCandidates uj base (e :: es) =
            uj base (elementUrl e) :: specCandidates uj base es := by
          simp [specCandidates, List.filterMap_cons, hu2]
        rw [hc]
        by_cases ha : uj base (elementUrl e) ∈ seen
        · have ha2 : uj base (elementUrl e) ∈ acc := (hme _).mp ha
          simp only [collectGo, hu, ha, List.foldl_cons, if_pos ha2, if_true,
            Bool.false_eq_true, if_false]
          exact collectGo_spec uj base es seen acc hme
        · have ha2 : uj base (elementUrl e) ∉ acc := fun hx => ha ((hme _).mpr hx)
          have hme2 : ∀ x, x ∈ uj base (elementUrl e) :: seen ↔
              x ∈ acc ++ [uj base (elementUrl e)] := by
            intro x
            simp [hme x, List.mem_append, or_comm]
          have ih := collectGo_spec uj base es (uj base (elementUrl e) :: seen)
            (acc ++ [uj base (elementUrl e)]) hme2
          simp only [collectGo, hu, ha, List.foldl_cons, if_neg ha2,
            Bool.false_eq_true, if_false]
          rw [ih, List.append_assoc]
          rfl

/-- The emitted URL list has no duplicates and avoids the initial seen set. -/
theorem collectGo_nodup (uj : List Nat → List Nat → List Nat)
    (base : List Nat) :
    ∀ (es : List Element) (seen : List (List Nat)),
    (collectGo uj base seen es).Nodup ∧
      ∀ x ∈ collectGo uj base seen es, x ∉ seen
  | [], seen => by simp [collectGo]
  | e :: es, seen => by
      by_cases hu : (elementUrl e).isEmpty
      · simpa [collectGo, hu] using collectGo_nodup uj base es seen
      · by_cases ha : uj base (elementUrl e) ∈ seen
        · simpa [collectGo, hu, ha] using collectGo_nodup uj base es seen
        · have ih := collectGo_nodup uj base es (uj base (elementUrl e) :: seen)
          have hne : uj base (elementUrl e) ∉
              collectGo uj base (uj base (elementUrl e) :: seen) es :=
            fun hmem => ih.2 _ hmem (by simp)
          simp only [collectGo, hu, ha, Bool.false_eq_true, if_false,
        List.nodup_cons]
          refine ⟨⟨hne, ih.1⟩, ?_⟩
          intro x hx
          rcases List.mem_cons.mp hx with rfl | hx2
          · exact ha
          · intro hxs
            exact ih.2 x hx2 (List.mem_cons.mpr (Or.inr hxs))

/-- C8: the dispatch loop reads "src" first, falls back to "href", skips
elements with neither, resolves against the base via the external URL
resolver, and emits each distinct absolute location exactly once in
first-occurrence order: it equals the spec-side dedup of the candidate
sequence and contains no duplicates (so each location gets exactly one
dispatched fetch, and the keyed archive mapping gets exactly one part). -/
theorem collect_assets_unique_first_occurrence
    (uj : List Nat → List Nat → List Nat) (base : List Nat)
    (es : List Element) :
    collectAssets uj base es = specCollectAssets uj base es ∧
    (collectAssets uj base es).Nodup := by
  constructor
  · have h := collectGo_spec uj base es [] [] (by simp)
    simp only [List.nil_append] at h
    exact h.symm
  · exact (collectGo_nodup uj base es []).1

-- Concrete evaluations of the embedded encoders; each right-hand side is the
-- byte output of the corresponding Python reference expression.
example : chunkedBase64 (str "Hi") = [83, 71, 107, 61] := by decide
example : chunkedBase64 [] = [] := by decide
example : rnQuopri (str "a\nb") = str "a\r\nb" := by decide
example : rnQuopri (str "a\r\nb") = str "a=0D\r\nb" := by decide
example : rnQuopri (str "A \n") = str "A=20\r\n" := by decide
example : rnQuopri (str ".") = str "=2E" := by decide
example : qpDecodestring (rnQuopri (str ".")) = str "." := by decide
example : qpDecodestring (rnQuopri (str "A \n")) = str "A \n" := by decide
example : rnQuopri (List.replicate 74 97 ++ [255]) =
    List.replicate 74 97 ++ [61, 61, 13, 10, 70, 70] := by decide
example : qpDecodestring (List.replicate 74 97 ++ [61, 61, 13, 10, 70, 70]) =
    List.replicate 74 97 ++ [61, 10, 70, 70] := by decide
